import Mathlib

/-
Shallow embedding of the Employee Salary Tracker wage engine
(src/salary.py): the hours parser `parse_hours` and the wage engine
`calculate_salary`.  Python floats are modelled as rationals (ℚ); the
pandas DataFrame is modelled as a list of rows; the in-place column
coercion performed by `calculate_salary` is modelled by returning the
coerced table as part of the result.
-/

/-- A calendar date, modelled by its day number.  Day 0 is chosen to be a
Thursday (like the Unix epoch 1970-01-01), so `weekday` below matches
Python's Monday=0 convention. -/
structure Date where
  daysSinceEpoch : ℤ
deriving DecidableEq

/-- Python `datetime.weekday()`: Monday = 0, ..., Friday = 4, Sunday = 6. -/
def Date.weekday (d : Date) : ℤ :=
  (d.daysSinceEpoch + 3) % 7

/-- A time of day (`datetime.time`), by seconds since midnight. -/
structure Time where
  secondsSinceMidnight : ℕ
deriving DecidableEq

/-- A cell of the `Date` column.  Modelled from the spec and the pandas
library boundary: `pd.to_datetime(..., errors="coerce")` is library code
outside this repository, so a raw cell is represented by its parse
outcome: either a value pandas parses to a datetime (`date`), a missing
value (`null`), or a value pandas cannot parse (`unparseable`). -/
inductive PyDateVal where
  | null
  | date (d : Date)
  | unparseable (s : String)
deriving DecidableEq

/-- A cell of the `In time` / `Out time` columns, analogously. -/
inductive PyTimeVal where
  | null
  | time (t : Time)
  | unparseable (s : String)
deriving DecidableEq

/-- A raw duration cell as fed to `parse_hours`: missing (NaN), a Python
int/float, or a string. -/
inductive HoursVal where
  | nan
  | num (x : ℚ)
  | str (s : String)
deriving DecidableEq

/-- Python `str.strip()` on a list of characters. -/
def trimChars (l : List Char) : List Char :=
  ((l.dropWhile Char.isWhitespace).reverse.dropWhile Char.isWhitespace).reverse

/-- Python `str.split(sep)` for a one-character separator. -/
def splitOnChar (c : Char) : List Char → List (List Char)
  | [] => [[]]
  | x :: xs =>
    if x = c then [] :: splitOnChar c xs
    else
      match splitOnChar c xs with
      | [] => [[x]]
      | p :: ps => (x :: p) :: ps

/-- Value of a digit string (no validity check). -/
def digitsVal (l : List Char) : ℕ :=
  l.foldl (fun acc c => acc * 10 + (c.toNat - 48)) 0

/-- A non-empty all-digit string, or failure. -/
def digitsToNat (l : List Char) : Option ℕ :=
  if l ≠ [] ∧ l.all Char.isDigit then some (digitsVal l) else none

/-- Python `int(s)` for decimal strings: optional surrounding whitespace,
optional sign, digits.  (Underscore separators are not modelled.) -/
def pyInt (l : List Char) : Option ℤ :=
  match trimChars l with
  | '-' :: rest => (digitsToNat rest).map (fun n => -Int.ofNat n)
  | '+' :: rest => (digitsToNat rest).map Int.ofNat
  | other => (digitsToNat other).map Int.ofNat

/-- Unsigned decimal literal `digits[.digits]` with at least one digit. -/
def mantissa (l : List Char) : Option ℚ :=
  match splitOnChar '.' l with
  | [ip] =>
    if ip ≠ [] ∧ ip.all Char.isDigit then some (digitsVal ip : ℚ) else none
  | [ip, fp] =>
    if (ip ≠ [] ∨ fp ≠ []) ∧ ip.all Char.isDigit ∧ fp.all Char.isDigit then
      some ((digitsVal ip : ℚ) + (digitsVal fp : ℚ) / (10 : ℚ) ^ fp.length)
    else none
  | _ => none

/-- Python `float(s)` for plain decimal strings: optional surrounding
whitespace, optional sign, decimal mantissa.  (Exponent, `inf` and `nan`
literals are not modelled; none occur in the properties below.) -/
def pyFloat (l : List Char) : Option ℚ :=
  match trimChars l with
  | '-' :: rest => (mantissa rest).map (fun q => -q)
  | '+' :: rest => mantissa rest
  | other => mantissa other

/-- src/salary.py `parse_hours`: convert an HH:MM string (or number) to
decimal hours.  Missing values give 0.0; numbers pass through; a string
containing `:` must split into exactly two integer parts (otherwise the
tuple unpacking / `int()` raises and the bare `except` returns 0.0); any
other string is parsed as a float, with 0.0 on failure. -/
def parse_hours : HoursVal → ℚ
  | .nan => 0
  | .num x => x
  | .str s =>
    let t := trimChars s.toList
    if t.contains ':' then
      match splitOnChar ':' t with
      | [h, m] =>
        match pyInt h, pyInt m with
        | some hv, some mv => (hv : ℚ) + (mv : ℚ) / 60
        | _, _ => 0
      | _ => 0
    else
      (pyFloat t).getD 0

/-- Round to the nearest integer, ties to even (Python `round`). -/
def roundHalfEven (q : ℚ) : ℤ :=
  if q - ⌊q⌋ < 1 / 2 then ⌊q⌋
  else if q - ⌊q⌋ > 1 / 2 then ⌊q⌋ + 1
  else if ⌊q⌋ % 2 = 0 then ⌊q⌋ else ⌊q⌋ + 1

/-- Python `round(x, 2)`. -/
def round2 (q : ℚ) : ℚ :=
  (roundHalfEven (q * 100) : ℚ) / 100

/-- `pd.to_datetime(cell, errors="coerce")`: a parseable cell becomes a
datetime, anything else becomes NaT (`none`). -/
def to_datetime : PyDateVal → Option Date
  | .date d => some d
  | _ => none

/-- `pd.to_datetime(cell, errors="coerce").dt.time` on one cell. -/
def to_time : PyTimeVal → Option Time
  | .time t => some t
  | _ => none

/-- The value stored back into the `Date` column by line 26 of the
source: the coerced datetime, with unparseable cells becoming NaT. -/
def coerceDateCell (v : PyDateVal) : PyDateVal :=
  match to_datetime v with
  | some d => .date d
  | none => .null

/-- The value stored back into the `In time` / `Out time` columns by
lines 27-28 of the source. -/
def coerceTimeCell (v : PyTimeVal) : PyTimeVal :=
  match to_time v with
  | some t => .time t
  | none => .null

/-- One row of the input DataFrame (columns of the attendance sheet). -/
structure Row where
  employeeId : String
  employeeName : String
  dateCell : PyDateVal
  inTime : PyTimeVal
  outTime : PyTimeVal
  totalWorkingHours : HoursVal
  extraWorkingTime : HoursVal
deriving DecidableEq

/-- The in-place mutation of one row performed by lines 26-28 of
`calculate_salary`: the `Date`, `In time` and `Out time` columns are
overwritten with their coerced values; all other columns are untouched. -/
def coerceRow (r : Row) : Row :=
  { r with
    dateCell := coerceDateCell r.dateCell
    inTime := coerceTimeCell r.inTime
    outTime := coerceTimeCell r.outTime }

/-- One row of the daily-breakdown output. -/
structure DailyPayEntry where
  employeeId : String
  employeeName : String
  date : Option Date
  inTime : Option Time
  outTime : Option Time
  totalHours : ℚ
  extraHours : ℚ
  dailyPay : ℚ
deriving DecidableEq

/-- Line 46 of the source: `date.weekday() == 4 or date.date() in
holidays`.  When the date failed to parse, `date` is pandas NaT:
`NaT.weekday()` is nan (never equal to 4) and `NaT.date()` is NaT, which
is not equal to any holiday date, so the test is False and the
multiplier stays 1. -/
def isRestDay (date : Option Date) (holidays : List Date) : Bool :=
  match date with
  | some d => d.weekday == 4 || holidays.contains d
  | none => false

/-- The loop body of `calculate_salary` (lines 35-62), producing one
daily-breakdown row from one (already coerced) input row. -/
def mkEntry (hourlyWage : ℚ) (holidays : List Date) (row : Row) : DailyPayEntry :=
  { employeeId := row.employeeId
    employeeName := row.employeeName
    date := to_datetime row.dateCell
    inTime := to_time row.inTime
    outTime := to_time row.outTime
    totalHours := parse_hours row.totalWorkingHours
    extraHours := parse_hours row.extraWorkingTime
    dailyPay := round2 (parse_hours row.totalWorkingHours * hourlyWage *
        (if isRestDay (to_datetime row.dateCell) holidays then 3 / 2 else 1) +
      parse_hours row.extraWorkingTime * hourlyWage) }

/-- The groupby key of a breakdown row: `(Employee ID, Employee Name)`. -/
def entryKey (e : DailyPayEntry) : String × String :=
  (e.employeeId, e.employeeName)

/-- One row of the monthly-totals output. -/
structure MonthlyTotal where
  employeeId : String
  employeeName : String
  totalHoursSum : ℚ
  extraHoursSum : ℚ
  dailyPaySum : ℚ
  fixedMonthlyPay : ℚ
  finalMonthlyPay : ℚ
deriving DecidableEq

/-- Lines 67-77 of the source, for one group key: sum the group's hours
and pay columns, then attach `Fixed Monthly Pay = basic + allowance` and
`Final Monthly Pay = Daily Pay sum + (basic + allowance)`. -/
def mkMonthly (basicSalary allowance : ℚ) (entries : List DailyPayEntry)
    (k : String × String) : MonthlyTotal :=
  { employeeId := k.1
    employeeName := k.2
    totalHoursSum := ((entries.filter (fun e => entryKey e == k)).map DailyPayEntry.totalHours).sum
    extraHoursSum := ((entries.filter (fun e => entryKey e == k)).map DailyPayEntry.extraHours).sum
    dailyPaySum := ((entries.filter (fun e => entryKey e == k)).map DailyPayEntry.dailyPay).sum
    fixedMonthlyPay := basicSalary + allowance
    finalMonthlyPay := ((entries.filter (fun e => entryKey e == k)).map DailyPayEntry.dailyPay).sum +
      (basicSalary + allowance) }

/-- Line 31: `daily_wage = (basic_salary + allowance) * 12 / 365`. -/
def daily_wage (basicSalary allowance : ℚ) : ℚ :=
  (basicSalary + allowance) * 12 / 365

/-- Line 32: `hourly_wage = daily_wage / 8`. -/
def hourly_wage (basicSalary allowance : ℚ) : ℚ :=
  daily_wage basicSalary allowance / 8

/-- The `results` list of the source (lines 34-62): one breakdown row
per input row, in order, computed over the coerced table. -/
def rowsResults (basicSalary allowance : ℚ) (holidays : List Date)
    (df : List Row) : List DailyPayEntry :=
  (df.map coerceRow).map (mkEntry (hourly_wage basicSalary allowance) holidays)

/-- The `monthly_totals` table (lines 67-77): one row per distinct
`(Employee ID, Employee Name)` key of the breakdown.  (pandas sorts the
group keys; only the row order differs, which the program does not rely
on.) -/
def monthlyTotalsOf (basicSalary allowance : ℚ) (holidays : List Date)
    (df : List Row) : List MonthlyTotal :=
  ((rowsResults basicSalary allowance holidays df).map entryKey).dedup.map
    (mkMonthly basicSalary allowance (rowsResults basicSalary allowance holidays df))

/-- The full result of `calculate_salary`: the source returns
`(breakdown_df, monthly_totals, hourly_wage, daily_wage)` and has also
mutated the caller's DataFrame in place; the mutated table is the `df`
field here. -/
structure SalaryResult where
  df : List Row
  breakdown : List DailyPayEntry
  monthlyTotals : List MonthlyTotal
  hourlyWage : ℚ
  dailyWage : ℚ
deriving DecidableEq

/-- src/salary.py `calculate_salary` (lines 24-79). -/
def calculate_salary (df : List Row) (basicSalary allowance : ℚ)
    (holidays : List Date) : SalaryResult :=
  { df := df.map coerceRow
    breakdown := rowsResults basicSalary allowance holidays df
    monthlyTotals := monthlyTotalsOf basicSalary allowance holidays df
    hourlyWage := hourly_wage basicSalary allowance
    dailyWage := daily_wage basicSalary allowance }

/-- Sample input rows used by the concrete witnesses below.  Day number 4
is a Monday and day number 1 a Friday under `Date.weekday`. -/
def sampleRow : Row :=
  { employeeId := "E1"
    employeeName := "Alice"
    dateCell := PyDateVal.date ⟨4⟩
    inTime := PyTimeVal.time ⟨32400⟩
    outTime := PyTimeVal.time ⟨61200⟩
    totalWorkingHours := HoursVal.str "8:30"
    extraWorkingTime := HoursVal.num 1 }

/-- A row whose date falls on a Friday. -/
def fridayRow : Row :=
  { sampleRow with dateCell := PyDateVal.date ⟨1⟩ }

/-- A row whose date cell pandas cannot parse (becomes NaT). -/
def badDateRow : Row :=
  { sampleRow with dateCell := PyDateVal.unparseable "not a date" }

/-- The breakdown entry produced for `fridayRow` in a run with
basic salary 30000 and allowance 5000. -/
def fridayEntry : DailyPayEntry :=
  mkEntry (hourly_wage 30000 5000) [] (coerceRow fridayRow)

/-- The monthly-totals row produced for `sampleRow` in a run with
basic salary 30000 and allowance 5000. -/
def sampleMonthly : MonthlyTotal :=
  mkMonthly 30000 5000 (rowsResults 30000 5000 [] [sampleRow]) ("E1", "Alice")

theorem roundHalfEven_of_lt_half (q : ℚ) (n : ℤ) (hf : ⌊q⌋ = n) (h : q - n < 1 / 2) :
    roundHalfEven q = n := by
  unfold roundHalfEven
  rw [hf, if_pos h]

theorem roundHalfEven_of_gt_half (q : ℚ) (n : ℤ) (hf : ⌊q⌋ = n) (h : 1 / 2 < q - n) :
    roundHalfEven q = n + 1 := by
  unfold roundHalfEven
  rw [hf, if_neg (by linarith), if_pos h]

/-- C3: `calculate_salary` computes `dailyWage = (basicSalary + allowance) * 12 / 365`
and `hourlyWage = dailyWage / 8` once per call and returns exactly these values;
for basicSalary = 30000 and allowance = 5000 this gives `dailyWage = 35000 * 12 / 365`
(which rounds to 1150.68) and `hourlyWage = dailyWage / 8` (which rounds to 143.84). -/
theorem C3_wage_rates (df df2 : List Row) (b a : ℚ) (hol hol2 : List Date) :
    (calculate_salary df b a hol).dailyWage = (b + a) * 12 / 365 ∧
    (calculate_salary df b a hol).hourlyWage = (b + a) * 12 / 365 / 8 ∧
    (calculate_salary df2 30000 5000 hol2).dailyWage = 35000 * 12 / 365 ∧
    (calculate_salary df2 30000 5000 hol2).hourlyWage = 35000 * 12 / 365 / 8 ∧
    round2 (calculate_salary df2 30000 5000 hol2).dailyWage = 115068 / 100 ∧
    round2 (calculate_salary df2 30000 5000 hol2).hourlyWage = 14384 / 100 := by
  have hd : (calculate_salary df2 30000 5000 hol2).dailyWage * 100 = 8400000 / 73 := by
    show daily_wage 30000 5000 * 100 = 8400000 / 73
    norm_num [daily_wage]
  have hh : (calculate_salary df2 30000 5000 hol2).hourlyWage * 100 = 1050000 / 73 := by
    show hourly_wage 30000 5000 * 100 = 1050000 / 73
    norm_num [hourly_wage, daily_wage]
  have hfd : ⌊(8400000 / 73 : ℚ)⌋ = 115068 := by
    rw [Int.floor_eq_iff]
    constructor <;> norm_num
  have hfh : ⌊(1050000 / 73 : ℚ)⌋ = 14383 := by
    rw [Int.floor_eq_iff]
    constructor <;> norm_num
  refine ⟨rfl, rfl, by norm_num [calculate_salary, daily_wage],
    by norm_num [calculate_salary, hourly_wage, daily_wage], ?_, ?_⟩
  · unfold round2
    rw [hd, roundHalfEven_of_lt_half _ 115068 hfd (by rw [hfd] at *; norm_num)]
    norm_num
  · unfold round2
    rw [hh, roundHalfEven_of_gt_half _ 14383 hfh (by norm_num)]
    norm_num

/-- C9: `calculate_salary` is deterministic: two invocations on equal inputs
(records table, basic salary, allowance, holiday list) produce equal results —
mutated table, daily breakdown, monthly totals and wage-rate scalars alike.
The only shared state in the source, the mutable default `holidays=[]`, is
never written, so the embedding as a pure function is faithful. -/
theorem C9_deterministic (df1 df2 : List Row) (b1 b2 a1 a2 : ℚ) (hol1 hol2 : List Date)
    (hdf : df1 = df2) (hb : b1 = b2) (ha : a1 = a2) (hhol : hol1 = hol2) :
    calculate_salary df1 b1 a1 hol1 = calculate_salary df2 b2 a2 hol2 := by
  rw [hdf, hb, ha, hhol]

theorem C9_witness :
    calculate_salary [sampleRow] 30000 5000 [] = calculate_salary [sampleRow] 30000 5000 [] :=
  C9_deterministic [sampleRow] [sampleRow] 30000 30000 5000 5000 [] [] rfl rfl rfl rfl

/-- C10: `calculate_salary` overwrites the caller's table before computing pay:
its `df` output (the table after the in-place mutation of lines 26-28) is the
input rows with the `Date` column replaced by its coerced value (unparseable
cells becoming null/NaT) and the `In time` / `Out time` columns replaced by
their coerced time-of-day values, every other column being left unchanged. -/
theorem C10_mutation (df : List Row) (b a : ℚ) (hol : List Date) :
    (calculate_salary df b a hol).df = df.map coerceRow ∧
    (∀ r : Row, (coerceRow r).employeeId = r.employeeId ∧
      (coerceRow r).employeeName = r.employeeName ∧
      (coerceRow r).totalWorkingHours = r.totalWorkingHours ∧
      (coerceRow r).extraWorkingTime = r.extraWorkingTime ∧
      (coerceRow r).dateCell = coerceDateCell r.dateCell ∧
      (coerceRow r).inTime = coerceTimeCell r.inTime ∧
      (coerceRow r).outTime = coerceTimeCell r.outTime) ∧
    (∀ s, coerceDateCell (PyDateVal.unparseable s) = PyDateVal.null) ∧
    coerceDateCell PyDateVal.null = PyDateVal.null ∧
    (∀ d, coerceDateCell (PyDateVal.date d) = PyDateVal.date d) ∧
    (∀ s, coerceTimeCell (PyTimeVal.unparseable s) = PyTimeVal.null) ∧
    (∀ t, coerceTimeCell (PyTimeVal.time t) = PyTimeVal.time t) :=
  ⟨rfl, fun _ => ⟨rfl, rfl, rfl, rfl, rfl, rfl, rfl⟩, fun _ => rfl, rfl, fun _ => rfl,
    fun _ => rfl, fun _ => rfl⟩

/-- C8 fails on the code: `calculate_salary` performs no validation at all.
Called with a negative basic salary it still produces a breakdown row and a
monthly-totals row for the input record, and returns a negative hourly wage —
it does not reject the call or suppress output. -/
theorem C8_counterexample :
    (calculate_salary [sampleRow] (-40000) 0 []).breakdown.length = 1 ∧
    (calculate_salary [sampleRow] (-40000) 0 []).monthlyTotals.length = 1 ∧
    (calculate_salary [sampleRow] (-40000) 0 []).hourlyWage < 0 := by
  refine ⟨rfl, rfl, ?_⟩
  show hourly_wage (-40000) 0 < 0
  norm_num [hourly_wage, daily_wage]

/-- C8 (amended): `calculate_salary` performs no validation of basicSalary or
allowance: whatever their sign, it processes every row (the breakdown keeps
one entry per input record) and, when basicSalary + allowance is negative, it
silently computes with negative daily and hourly wage rates. -/
theorem C8_no_validation (df : List Row) (b a : ℚ) (hol : List Date) (h : b + a < 0) :
    (calculate_salary df b a hol).breakdown.length = df.length ∧
    (calculate_salary df b a hol).dailyWage < 0 ∧
    (calculate_salary df b a hol).hourlyWage < 0 := by
  have hdw : daily_wage b a < 0 := by
    unfold daily_wage
    exact div_neg_of_neg_of_pos (mul_neg_of_neg_of_pos h (by norm_num)) (by norm_num)
  refine ⟨?_, hdw, ?_⟩
  · show (rowsResults b a hol df).length = df.length
    simp [rowsResults]
  · show hourly_wage b a < 0
    exact div_neg_of_neg_of_pos hdw (by norm_num)

theorem C8_witness :
    ((-40000 : ℚ) + 0 < 0) ∧
    ((calculate_salary [sampleRow] (-40000) 0 []).breakdown.length = [sampleRow].length ∧
      (calculate_salary [sampleRow] (-40000) 0 []).dailyWage < 0 ∧
      (calculate_salary [sampleRow] (-40000) 0 []).hourlyWage < 0) :=
  ⟨by norm_num, C8_no_validation [sampleRow] (-40000) 0 [] (by norm_num)⟩

theorem parse_hours_str (s : String) :
    parse_hours (HoursVal.str s) =
      if (trimChars s.toList).contains ':' then
        match splitOnChar ':' (trimChars s.toList) with
        | [h, m] =>
          match pyInt h, pyInt m with
          | some hv, some mv => (hv : ℚ) + (mv : ℚ) / 60
          | _, _ => 0
        | _ => 0
      else (pyFloat (trimChars s.toList)).getD 0 := rfl

theorem splitOnChar_of_not_mem (c : Char) (l : List Char) (h : c ∉ l) :
    splitOnChar c l = [l] := by
  induction l with
  | nil => rfl
  | cons x xs ih =>
    have hxc : ¬ x = c := fun hx => h (hx ▸ List.mem_cons_self x xs)
    have hxs : c ∉ xs := fun hx => h (List.mem_cons_of_mem _ hx)
    simp only [splitOnChar, if_neg hxc, ih hxs]

theorem mem_of_mem_trimChars {c : Char} {l : List Char} (h : c ∈ trimChars l) :
    c ∈ l := by
  unfold trimChars at h
  rw [List.mem_reverse] at h
  have h2 := (List.dropWhile_sublist _).subset h
  rw [List.mem_reverse] at h2
  exact (List.dropWhile_sublist _).subset h2

theorem splitOnChar_subset (c : Char) (l : List Char) :
    ∀ p ∈ splitOnChar c l, ∀ x ∈ p, x ∈ l := by
  induction l with
  | nil =>
    intro p hp x hx
    simp only [splitOnChar, List.mem_singleton] at hp
    subst hp
    simp at hx
  | cons y ys ih =>
    intro p hp x hx
    by_cases hyc : y = c
    · simp only [splitOnChar, if_pos hyc] at hp
      rcases List.mem_cons.1 hp with rfl | hp
      · simp at hx
      · exact List.mem_cons_of_mem _ (ih p hp x hx)
    · rcases hsp : splitOnChar c ys with _ | ⟨q, qs⟩
      · simp only [splitOnChar, if_neg hyc, hsp] at hp
        rw [List.mem_singleton] at hp
        subst hp
        rw [List.mem_singleton] at hx
        subst hx
        exact List.mem_cons_self _ _
      · simp only [splitOnChar, if_neg hyc, hsp] at hp
        rcases List.mem_cons.1 hp with rfl | hp
        · rcases List.mem_cons.1 hx with rfl | hx
          · exact List.mem_cons_self _ _
          · exact List.mem_cons_of_mem _
              (ih q (by rw [hsp]; exact List.mem_cons_self _ _) x hx)
        · exact List.mem_cons_of_mem _
            (ih p (by rw [hsp]; exact List.mem_cons_of_mem _ hp) x hx)

theorem pyInt_nonneg {l : List Char} (hne : '-' ∉ l) {v : ℤ}
    (hv : pyInt l = some v) : 0 ≤ v := by
  unfold pyInt at hv
  split at hv
  · next rest heq =>
    exact absurd (mem_of_mem_trimChars
      (show '-' ∈ trimChars l by rw [heq]; exact List.mem_cons_self _ _)) hne
  · next rest heq =>
    rcases Option.map_eq_some'.1 hv with ⟨n, _, rfl⟩
    exact Int.ofNat_nonneg n
  · next heq1 heq2 =>
    rcases Option.map_eq_some'.1 hv with ⟨n, _, rfl⟩
    exact Int.ofNat_nonneg n

theorem mantissa_nonneg {l : List Char} {q : ℚ} (h : mantissa l = some q) :
    0 ≤ q := by
  unfold mantissa at h
  split at h
  · split at h
    · injection h with h
      subst h
      exact Nat.cast_nonneg _
    · simp at h
  · split at h
    · injection h with h
      subst h
      exact add_nonneg (Nat.cast_nonneg _)
        (div_nonneg (Nat.cast_nonneg _) (by positivity))
    · simp at h
  · simp at h

theorem pyFloat_nonneg {l : List Char} (hne : '-' ∉ l) {q : ℚ}
    (h : pyFloat l = some q) : 0 ≤ q := by
  unfold pyFloat at h
  split at h
  · next rest heq =>
    exact absurd (mem_of_mem_trimChars
      (show '-' ∈ trimChars l by rw [heq]; exact List.mem_cons_self _ _)) hne
  · next rest heq =>
    exact mantissa_nonneg h
  · next heq1 heq2 =>
    exact mantissa_nonneg h

/-- C4: `parse_hours` satisfies the spec examples — "8:30" gives 8.5, the empty
string gives 0, the number 7 gives 7, "garbage" gives 0 — and in general a
numeric input is returned unchanged, a string splitting at `:` into two parts
that parse as integers HH and MM gives HH + MM/60, and a colon-free string
that does not parse as a float gives 0. -/
theorem C4_parse_hours :
    parse_hours (HoursVal.str "8:30") = 17 / 2 ∧
    parse_hours (HoursVal.str "") = 0 ∧
    parse_hours (HoursVal.num 7) = 7 ∧
    parse_hours (HoursVal.str "garbage") = 0 ∧
    (∀ x : ℚ, parse_hours (HoursVal.num x) = x) ∧
    (∀ (s : String) (hs ms : List Char) (hv mv : ℤ),
      splitOnChar ':' (trimChars s.toList) = [hs, ms] →
      pyInt hs = some hv → pyInt ms = some mv →
      parse_hours (HoursVal.str s) = (hv : ℚ) + (mv : ℚ) / 60) ∧
    (∀ s : String, (trimChars s.toList).contains ':' = false →
      pyFloat (trimChars s.toList) = none →
      parse_hours (HoursVal.str s) = 0) := by
  refine ⟨?_, rfl, rfl, rfl, fun x => rfl, ?_, ?_⟩
  · have h1 : parse_hours (HoursVal.str "8:30") = ((8 : ℤ) : ℚ) + ((30 : ℤ) : ℚ) / 60 := rfl
    rw [h1]
    norm_num
  · intro s hs ms hv mv hsplit hh hm
    have hc : (trimChars s.toList).contains ':' = true := by
      by_cases hmem : ':' ∈ trimChars s.toList
      · exact List.elem_iff.2 hmem
      · rw [splitOnChar_of_not_mem _ _ hmem] at hsplit
        exact absurd hsplit (by simp)
    rw [parse_hours_str, if_pos hc, hsplit]
    show (match pyInt hs, pyInt ms with
      | some hv2, some mv2 => (hv2 : ℚ) + (mv2 : ℚ) / 60
      | _, _ => 0) = (hv : ℚ) + (mv : ℚ) / 60
    rw [hh, hm]
  · intro s hc hpf
    rw [parse_hours_str, if_neg (by rw [hc]; exact Bool.false_ne_true), hpf]
    rfl

theorem C4_witness :
    splitOnChar ':' (trimChars " 10:45 ".toList) = [['1', '0'], ['4', '5']] ∧
    pyInt ['1', '0'] = some 10 ∧ pyInt ['4', '5'] = some 45 ∧
    parse_hours (HoursVal.str " 10:45 ") = ((10 : ℤ) : ℚ) + ((45 : ℤ) : ℚ) / 60 :=
  ⟨by decide, by decide, by decide,
    C4_parse_hours.2.2.2.2.2.1 " 10:45 " ['1', '0'] ['4', '5'] 10 45
      (by decide) (by decide) (by decide)⟩

/-- C5 fails on the code as stated: `parse_hours` is total, but its result is
not always non-negative — a negative numeric input is returned unchanged, so
`parse_hours(-3)` is -3, which is negative. -/
theorem C5_counterexample :
    parse_hours (HoursVal.num (-3)) = -3 ∧ ¬ 0 ≤ parse_hours (HoursVal.num (-3)) := by
  constructor
  · rfl
  · show ¬ (0 : ℚ) ≤ -3
    norm_num

/-- C5 (amended): `parse_hours` is a total function (defined on every missing,
numeric or string input — in this embedding it is a total Lean function, so no
exception can propagate), and its result is non-negative whenever the input
itself carries no minus sign: for missing input, for non-negative numeric
input, and for any string not containing the character `-`.  A negative
numeric input, however, is returned unchanged, so the unconditional
non-negativity stated by the spec does not hold. -/
theorem C5_total_nonneg (v : HoursVal)
    (h : match v with
      | HoursVal.nan => True
      | HoursVal.num x => 0 ≤ x
      | HoursVal.str s => '-' ∉ s.toList) :
    0 ≤ parse_hours v := by
  match v with
  | HoursVal.nan => exact le_refl 0
  | HoursVal.num x => exact h
  | HoursVal.str s =>
    have hne : '-' ∉ s.toList := h
    have hnetrim : '-' ∉ trimChars s.toList := fun hmem => hne (mem_of_mem_trimChars hmem)
    rw [parse_hours_str]
    split
    · split
      · next hs ms heq =>
        split
        · next hv mv hh hm =>
          have hhs : '-' ∉ hs := fun hmem => hnetrim
            (splitOnChar_subset ':' _ hs (by rw [heq]; exact List.mem_cons_self _ _) '-' hmem)
          have hms : '-' ∉ ms := fun hmem => hnetrim
            (splitOnChar_subset ':' _ ms
              (by rw [heq]; exact List.mem_cons_of_mem _ (List.mem_cons_self _ _)) '-' hmem)
          have h1 : (0 : ℤ) ≤ hv := pyInt_nonneg hhs hh
          have h2 : (0 : ℤ) ≤ mv := pyInt_nonneg hms hm
          have h1q : (0 : ℚ) ≤ (hv : ℚ) := by exact_mod_cast h1
          have h2q : (0 : ℚ) ≤ (mv : ℚ) := by exact_mod_cast h2
          exact add_nonneg h1q (div_nonneg h2q (by norm_num))
        · exact le_refl 0
      · exact le_refl 0
    · rcases hpf : pyFloat (trimChars s.toList) with _ | q
      · rw [Option.getD_none]
      · rw [Option.getD_some]
        exact pyFloat_nonneg hnetrim hpf

theorem C5_witness : 0 ≤ parse_hours (HoursVal.str "8:30") :=
  C5_total_nonneg (HoursVal.str "8:30") (by show '-' ∉ "8:30".toList; decide)

/-- C1: every daily-breakdown entry whose parsed date is a Friday (weekday
index 4, Monday = 0) or a member of the holidays list satisfies
`dailyPay = round2(totalHours * hourlyWage * 1.5 + extraHours * hourlyWage)`,
and every entry whose date is neither satisfies the same equation with
multiplier 1; in both cases the extra-hours term is never multiplier-adjusted. -/
theorem C1_multiplier (df : List Row) (b a : ℚ) (hol : List Date) (e : DailyPayEntry)
    (he : e ∈ (calculate_salary df b a hol).breakdown) :
    ((∃ d, e.date = some d ∧ (d.weekday = 4 ∨ d ∈ hol)) →
      e.dailyPay = round2 (e.totalHours * (calculate_salary df b a hol).hourlyWage * (3 / 2) +
        e.extraHours * (calculate_salary df b a hol).hourlyWage)) ∧
    ((∀ d, e.date = some d → d.weekday ≠ 4 ∧ d ∉ hol) →
      e.dailyPay = round2 (e.totalHours * (calculate_salary df b a hol).hourlyWage * 1 +
        e.extraHours * (calculate_salary df b a hol).hourlyWage)) := by
  have hbd : (calculate_salary df b a hol).breakdown =
      (df.map coerceRow).map (mkEntry (hourly_wage b a) hol) := rfl
  rw [hbd] at he
  rcases List.mem_map.1 he with ⟨r, hr, rfl⟩
  constructor
  · rintro ⟨d, hd, hrest⟩
    have hd2 : to_datetime r.dateCell = some d := hd
    have hrd : isRestDay (to_datetime r.dateCell) hol = true := by
      rw [hd2]
      rcases hrest with h4 | hmem
      · simp [isRestDay, h4]
      · simp [isRestDay, hmem]
    show round2 (parse_hours r.totalWorkingHours * hourly_wage b a *
        (if isRestDay (to_datetime r.dateCell) hol then 3 / 2 else 1) +
      parse_hours r.extraWorkingTime * hourly_wage b a) = _
    rw [hrd, if_pos rfl]
    rfl
  · intro hno
    have hrd : isRestDay (to_datetime r.dateCell) hol = false := by
      rcases hcase : to_datetime r.dateCell with _ | d
      · rfl
      · obtain ⟨h4, hmem⟩ := hno d hcase
        simp [isRestDay, h4, hmem]
    show round2 (parse_hours r.totalWorkingHours * hourly_wage b a *
        (if isRestDay (to_datetime r.dateCell) hol then 3 / 2 else 1) +
      parse_hours r.extraWorkingTime * hourly_wage b a) = _
    rw [hrd, if_neg Bool.false_ne_true]
    rfl

theorem C1_witness :
    fridayEntry ∈ (calculate_salary [fridayRow] 30000 5000 []).breakdown ∧
    fridayEntry.dailyPay = round2 (fridayEntry.totalHours *
      (calculate_salary [fridayRow] 30000 5000 []).hourlyWage * (3 / 2) +
      fridayEntry.extraHours * (calculate_salary [fridayRow] 30000 5000 []).hourlyWage) :=
  ⟨List.Mem.head _,
    (C1_multiplier [fridayRow] 30000 5000 [] fridayEntry (List.Mem.head _)).1
      ⟨⟨1⟩, rfl, Or.inl (by decide)⟩⟩

/-- C2: every monthly-totals row satisfies
`finalMonthlyPay = fixedMonthlyPay + dailyPaySum` exactly, where
`fixedMonthlyPay = basicSalary + allowance` on every row and `dailyPaySum` is
the plain sum of that employee's per-row (already rounded) dailyPay values —
no further rounding is applied to the sums. -/
theorem C2_monthly (df : List Row) (b a : ℚ) (hol : List Date) (m : MonthlyTotal)
    (hm : m ∈ (calculate_salary df b a hol).monthlyTotals) :
    m.finalMonthlyPay = m.fixedMonthlyPay + m.dailyPaySum ∧
    m.fixedMonthlyPay = b + a ∧
    m.dailyPaySum = (((calculate_salary df b a hol).breakdown.filter
      (fun e => entryKey e == (m.employeeId, m.employeeName))).map
        DailyPayEntry.dailyPay).sum := by
  have hmt : (calculate_salary df b a hol).monthlyTotals =
      ((rowsResults b a hol df).map entryKey).dedup.map
        (mkMonthly b a (rowsResults b a hol df)) := rfl
  rw [hmt] at hm
  rcases List.mem_map.1 hm with ⟨k, hk, rfl⟩
  obtain ⟨k1, k2⟩ := k
  exact ⟨add_comm _ _, rfl, rfl⟩

theorem C2_witness :
    sampleMonthly ∈ (calculate_salary [sampleRow] 30000 5000 []).monthlyTotals ∧
    (sampleMonthly.finalMonthlyPay = sampleMonthly.fixedMonthlyPay + sampleMonthly.dailyPaySum ∧
      sampleMonthly.fixedMonthlyPay = 30000 + 5000 ∧
      sampleMonthly.dailyPaySum =
        (((calculate_salary [sampleRow] 30000 5000 []).breakdown.filter
          (fun e => entryKey e == (sampleMonthly.employeeId, sampleMonthly.employeeName))).map
            DailyPayEntry.dailyPay).sum) :=
  ⟨List.Mem.head _, C2_monthly [sampleRow] 30000 5000 [] sampleMonthly (List.Mem.head _)⟩

/-- C6: the monthly-totals table contains each distinct
`(employeeId, employeeName)` pair of the input exactly once: its key column is
duplicate-free, and a pair appears there if and only if it appears in the
input records — no employee dropped, none duplicated. -/
theorem C6_grouping (df : List Row) (b a : ℚ) (hol : List Date) :
    ((calculate_salary df b a hol).monthlyTotals.map
      (fun m => (m.employeeId, m.employeeName))).Nodup ∧
    ∀ p : String × String,
      p ∈ (calculate_salary df b a hol).monthlyTotals.map
        (fun m => (m.employeeId, m.employeeName)) ↔
      p ∈ df.map (fun r => (r.employeeId, r.employeeName)) := by
  have hkeys : (calculate_salary df b a hol).monthlyTotals.map
      (fun m => (m.employeeId, m.employeeName)) =
      ((rowsResults b a hol df).map entryKey).dedup := by
    show (((rowsResults b a hol df).map entryKey).dedup.map
        (mkMonthly b a (rowsResults b a hol df))).map
        (fun m => (m.employeeId, m.employeeName)) = _
    rw [List.map_map]
    have hcomp : ((fun m : MonthlyTotal => (m.employeeId, m.employeeName)) ∘
        mkMonthly b a (rowsResults b a hol df)) = id := by
      funext k
      obtain ⟨k1, k2⟩ := k
      rfl
    rw [hcomp, List.map_id]
  have hin : (rowsResults b a hol df).map entryKey =
      df.map (fun r => (r.employeeId, r.employeeName)) := by
    show ((df.map coerceRow).map (mkEntry (hourly_wage b a) hol)).map entryKey = _
    rw [List.map_map, List.map_map]
    rfl
  constructor
  · rw [hkeys]
    exact List.nodup_dedup _
  · intro p
    rw [hkeys, List.mem_dedup, hin]

/-- C7: a record whose date value fails to parse does not crash the engine
(the embedding stays a total function mirroring pandas NaT semantics): the
breakdown keeps one row per input record, and the bad-date record's row is
still emitted, with a null date and the multiplier defaulting to 1. -/
theorem C7_bad_date (df : List Row) (b a : ℚ) (hol : List Date) (r : Row)
    (hr : r ∈ df) (hbad : to_datetime r.dateCell = none) :
    (calculate_salary df b a hol).breakdown.length = df.length ∧
    ∃ e, e ∈ (calculate_salary df b a hol).breakdown ∧
      e.employeeId = r.employeeId ∧ e.employeeName = r.employeeName ∧
      e.date = none ∧
      e.dailyPay = round2 (e.totalHours * (calculate_salary df b a hol).hourlyWage * 1 +
        e.extraHours * (calculate_salary df b a hol).hourlyWage) := by
  have hlen : (calculate_salary df b a hol).breakdown.length = df.length := by
    show ((df.map coerceRow).map (mkEntry (hourly_wage b a) hol)).length = df.length
    rw [List.length_map, List.length_map]
  have hcoerce : to_datetime (coerceRow r).dateCell = none := by
    show to_datetime (coerceDateCell r.dateCell) = none
    unfold coerceDateCell
    rw [hbad]
    rfl
  refine ⟨hlen, mkEntry (hourly_wage b a) hol (coerceRow r), ?_, rfl, rfl, hcoerce, ?_⟩
  · show mkEntry (hourly_wage b a) hol (coerceRow r) ∈
      (df.map coerceRow).map (mkEntry (hourly_wage b a) hol)
    exact List.mem_map.2 ⟨coerceRow r, List.mem_map.2 ⟨r, hr, rfl⟩, rfl⟩
  · show round2 (parse_hours (coerceRow r).totalWorkingHours * hourly_wage b a *
        (if isRestDay (to_datetime (coerceRow r).dateCell) hol then 3 / 2 else 1) +
      parse_hours (coerceRow r).extraWorkingTime * hourly_wage b a) = _
    rw [hcoerce]
    rfl

theorem C7_witness :
    (calculate_salary [badDateRow] 30000 5000 []).breakdown.length = [badDateRow].length ∧
    ∃ e, e ∈ (calculate_salary [badDateRow] 30000 5000 []).breakdown ∧
      e.employeeId = badDateRow.employeeId ∧ e.employeeName = badDateRow.employeeName ∧
      e.date = none ∧
      e.dailyPay = round2 (e.totalHours *
        (calculate_salary [badDateRow] 30000 5000 []).hourlyWage * 1 +
        e.extraHours * (calculate_salary [badDateRow] 30000 5000 []).hourlyWage) :=
  C7_bad_date [badDateRow] 30000 5000 [] badDateRow (List.Mem.head _) rfl
